import Mathlib

/-!
Verification development for the CollegeWayfarer server: a shallow embedding
of its schema (shared/schema.ts), its storage layer (PostgresStorage and
MemStorage in server/storage.ts) and the Express route handlers
(server/routes.ts, server/auth.ts), together with theorems settling the
behavioural claims about ownership, sharing, positioning and registration.
Storage tables are modelled as lists of rows; serial primary keys are
modelled with explicit next-id counters; Date.now timestamps are passed in
as explicit natural-number clock arguments; JavaScript exceptions and
external outcomes (database insert failures, the generative AI call) are
modelled as explicit Except/Option inputs.
-/

namespace CollegeWayfarer

/-- Sentinel text stored for onboarding questions the user skipped. -/
def skippedSentinel : String := "User skipped this question."

/-- College status enumeration (CollegeStatus in the schema). -/
inductive CollegeStatus
  | applying
  | researching
  | notApplying
deriving DecidableEq

/-- Advisor type enumeration (AdvisorType in the schema). -/
inductive AdvisorKind
  | schoolCounselor
  | privateCounselor
  | parent
  | sibling
  | otherKind
deriving DecidableEq

/-- Message sender marker, "user" or "ai". -/
inductive Sender
  | user
  | ai
deriving DecidableEq

/-- Onboarding responses. The schema declares seven string fields, each
defaulted by zod; at runtime a JavaScript object may omit keys, so each
field is an Option and a missing key is none. -/
structure Onboarding where
  programs : Option String
  academicEnv : Option String
  location : Option String
  culture : Option String
  academicStats : Option String
  financialAid : Option String
  other : Option String
deriving DecidableEq

/-- A row of the users table. -/
structure User where
  id : Nat
  username : String
  password : String
  profileDescription : Option String
  onboarding : Onboarding
deriving DecidableEq

/-- A row of the colleges table. Position is an Int because the insert
schema only requires a JavaScript number for it. -/
structure College where
  id : Nat
  userId : Nat
  name : String
  status : CollegeStatus
  position : Int
  createdAt : Nat
  updatedAt : Nat
deriving DecidableEq

/-- A row of the chat_sessions table. -/
structure ChatSession where
  id : Nat
  userId : Nat
  title : String
  createdAt : Nat
  updatedAt : Nat
deriving DecidableEq

/-- A file attachment recorded on a chat message. -/
structure FileAttachment where
  filename : String
  url : String
  contentType : String
  size : Nat
deriving DecidableEq

/-- A row of the chat_messages table. -/
structure ChatMessage where
  id : Nat
  sessionId : Nat
  content : String
  sender : Sender
  attachments : List FileAttachment
  createdAt : Nat
deriving DecidableEq

/-- A row of the advisors table. -/
structure Advisor where
  id : Nat
  userId : Nat
  name : String
  advisorType : AdvisorKind
  shareToken : String
  isActive : Bool
  createdAt : Nat
  updatedAt : Nat
deriving DecidableEq

/-- A row of the college_recommendations table. -/
structure CollegeRecommendation where
  id : Nat
  userId : Nat
  name : String
  description : String
  reason : String
  acceptanceRate : Option Int
  recommendedBy : Option String
  advisorNotes : Option String
  createdAt : Nat
  updatedAt : Nat
deriving DecidableEq

/-- A row of the shared_chat_sessions junction table. -/
structure SharedChatSession where
  id : Nat
  advisorId : Nat
  sessionId : Nat
  createdAt : Nat
deriving DecidableEq

/-- The whole persistent state: one list of rows per table plus the next
value of each serial primary key. -/
structure Storage where
  users : List User
  colleges : List College
  chatSessions : List ChatSession
  chatMessages : List ChatMessage
  advisors : List Advisor
  recommendations : List CollegeRecommendation
  sharedChatSessions : List SharedChatSession
  nextUserId : Nat
  nextCollegeId : Nat
  nextSessionId : Nat
  nextMessageId : Nat
  nextAdvisorId : Nat
  nextRecommendationId : Nat
  nextSharedId : Nat
deriving DecidableEq

/-- The storage with no rows at all. -/
def emptyStorage : Storage :=
  { users := [], colleges := [], chatSessions := [], chatMessages := [],
    advisors := [], recommendations := [], sharedChatSessions := [],
    nextUserId := 1, nextCollegeId := 1, nextSessionId := 1,
    nextMessageId := 1, nextAdvisorId := 1, nextRecommendationId := 1,
    nextSharedId := 1 }

/-- Stable insertion used to model the sorts the storage layer performs. -/
def sortedInsert {α : Type} (le : α → α → Bool) (a : α) : List α → List α
  | [] => [a]
  | b :: bs => if le a b then a :: b :: bs else b :: sortedInsert le a bs

/-- Stable sort by the given boolean order. -/
def stableSortBy {α : Type} (le : α → α → Bool) (l : List α) : List α :=
  l.foldr (sortedInsert le) []

/-- PostgresStorage.getUser: select the users row with the given id. -/
def getUser (st : Storage) (id : Nat) : Option User :=
  st.users.find? (fun u => u.id == id)

/-- PostgresStorage.getUserByUsername. -/
def getUserByUsername (st : Storage) (username : String) : Option User :=
  st.users.find? (fun u => u.username == username)

/-- Onboarding object built by createUser in storage.ts when none is
provided: all seven fields hold the sentinel. -/
def storageDefaultOnboarding : Onboarding :=
  { programs := some skippedSentinel, academicEnv := some skippedSentinel,
    location := some skippedSentinel, culture := some skippedSentinel,
    academicStats := some skippedSentinel, financialAid := some skippedSentinel,
    other := some skippedSentinel }

/-- Onboarding object built inline by the register route in auth.ts when
the request carries no onboarding payload. It lists only five of the seven
fields: academicStats and financialAid are absent. -/
def registerFallbackOnboarding : Onboarding :=
  { programs := some skippedSentinel, academicEnv := some skippedSentinel,
    location := some skippedSentinel, culture := some skippedSentinel,
    academicStats := none, financialAid := none,
    other := some skippedSentinel }

/-- PostgresStorage.createUser and MemStorage.createUser: insert a user,
falling back to the complete default onboarding only when the caller
passed no onboarding object at all (JavaScript or-else on the field). -/
def createUser (st : Storage) (username hashedPassword : String)
    (onboarding : Option Onboarding) : User × Storage :=
  let u : User :=
    { id := st.nextUserId, username := username, password := hashedPassword,
      profileDescription := none,
      onboarding := onboarding.getD storageDefaultOnboarding }
  (u, { st with users := st.users ++ [u], nextUserId := st.nextUserId + 1 })

/-- POST /api/register in auth.ts: reject an existing username, otherwise
hash the password and create the user, substituting the five-field inline
fallback object when the request has no onboarding payload. -/
def registerUser (st : Storage) (hashPw : String → String)
    (username password : String) (onboarding : Option Onboarding) :
    Option (User × Storage) :=
  if st.users.any (fun u => u.username == username) then
    none
  else
    some (createUser st username (hashPw password)
      (some (onboarding.getD registerFallbackOnboarding)))

/-- PostgresStorage.updateUserProfileDescription. -/
def updateUserProfileDescription (st : Storage) (userId : Nat)
    (profileDescription : String) : Storage :=
  { st with users := st.users.map (fun u =>
      if u.id == userId then { u with profileDescription := some profileDescription } else u) }

/-- PostgresStorage.getAdvisorByShareToken: selects on the share token
only; the isActive flag is not part of the where clause. -/
def getAdvisorByShareToken (st : Storage) (token : String) : Option Advisor :=
  st.advisors.find? (fun a => a.shareToken == token)

/-- MemStorage.getAdvisorByShareToken: matches the token and additionally
requires isActive to be true. -/
def getAdvisorByShareTokenMem (st : Storage) (token : String) : Option Advisor :=
  st.advisors.find? (fun a => a.shareToken == token && a.isActive)

/-- createAdvisor: a fresh share token is supplied by the caller of the
embedding (crypto.randomUUID in the source); isActive starts true. -/
def createAdvisor (st : Storage) (userId : Nat) (name : String)
    (advisorType : AdvisorKind) (shareToken : String) (now : Nat) :
    Advisor × Storage :=
  let a : Advisor :=
    { id := st.nextAdvisorId, userId := userId, name := name,
      advisorType := advisorType, shareToken := shareToken,
      isActive := true, createdAt := now, updatedAt := now }
  (a,
   { st with
     advisors := st.advisors ++ [a],
     nextAdvisorId := st.nextAdvisorId + 1 })

/-- updateAdvisorActiveStatus in both storage implementations: set the
flag and bump updatedAt on the row with the given id; none if absent. -/
def updateAdvisorActiveStatus (st : Storage) (advisorId : Nat)
    (isActive : Bool) (now : Nat) : Option Advisor × Storage :=
  match st.advisors.find? (fun a => a.id == advisorId) with
  | none => (none, st)
  | some a =>
    (some { a with isActive := isActive, updatedAt := now },
     { st with advisors := st.advisors.map (fun b =>
         if b.id == advisorId then { b with isActive := isActive, updatedAt := now } else b) })

/-- deleteAdvisor in both storage implementations: remove the advisors row
with the given id and report whether one was removed; no other table is
touched. -/
def deleteAdvisor (st : Storage) (advisorId : Nat) : Bool × Storage :=
  (st.advisors.any (fun a => a.id == advisorId),
   { st with advisors := st.advisors.filter (fun a => !(a.id == advisorId)) })

/-- Colleges of one user currently in one status column. -/
def collegesInStatus (cols : List College) (userId : Nat)
    (status : CollegeStatus) : List College :=
  cols.filter (fun c => c.userId == userId && c.status == status)

/-- Fallback position computed by PostgresStorage.createCollege and
PostgresStorage.updateCollegeStatus: Math.max over the positions of the
target column plus one, or 1 when the column is empty. -/
def pgNextPosition (group : List College) : Int :=
  match group.map (fun c => c.position) with
  | [] => 1
  | p :: ps => ps.foldl max p + 1

/-- Fallback position computed by MemStorage.createCollege and
MemStorage.updateCollegeStatus: a reduce of max starting from 0, plus
one, so the result is never below 1. -/
def memNextPosition (group : List College) : Int :=
  group.foldl (fun m c => max m c.position) 0 + 1

/-- Modelled from the spec wording, for comparison with the code: the
position is recomputed as the maximum of the existing positions in the
new column plus one, or 1 when that column is empty. -/
def specNewPosition (cols : List College) (userId : Nat)
    (status : CollegeStatus) : Int :=
  match ((collegesInStatus cols userId status).map (fun c => c.position)).max? with
  | none => 1
  | some m => m + 1

/-- PostgresStorage.createCollege: use the provided position when the
request carries one, otherwise append to the end of the column. -/
def createCollege (st : Storage) (userId : Nat) (name : String)
    (status : CollegeStatus) (posArg : Option Int) (now : Nat) :
    College × Storage :=
  let pos := match posArg with
    | some p => p
    | none => pgNextPosition (collegesInStatus st.colleges userId status)
  let c : College :=
    { id := st.nextCollegeId, userId := userId, name := name,
      status := status, position := pos, createdAt := now, updatedAt := now }
  (c,
   { st with
     colleges := st.colleges ++ [c],
     nextCollegeId := st.nextCollegeId + 1 })

/-- MemStorage.createCollege: as createCollege but with the reduce-based
fallback position. -/
def createCollegeMem (st : Storage) (userId : Nat) (name : String)
    (status : CollegeStatus) (posArg : Option Int) (now : Nat) :
    College × Storage :=
  let pos := match posArg with
    | some p => p
    | none => memNextPosition (collegesInStatus st.colleges userId status)
  let c : College :=
    { id := st.nextCollegeId, userId := userId, name := name,
      status := status, position := pos, createdAt := now, updatedAt := now }
  (c,
   { st with
     colleges := st.colleges ++ [c],
     nextCollegeId := st.nextCollegeId + 1 })

/-- PostgresStorage.updateCollegeStatus: look the college up, compute the
append position of the target column, then set status, position and
updatedAt on that row only. -/
def updateCollegeStatus (st : Storage) (collegeId : Nat)
    (status : CollegeStatus) (now : Nat) : Option College × Storage :=
  match st.colleges.find? (fun c => c.id == collegeId) with
  | none => (none, st)
  | some c =>
    let pos := pgNextPosition (collegesInStatus st.colleges c.userId status)
    (some { c with status := status, position := pos, updatedAt := now },
     { st with
       colleges := st.colleges.map (fun b =>
         if b.id == collegeId then
           { b with status := status, position := pos, updatedAt := now }
         else b) })

/-- MemStorage.updateCollegeStatus: as updateCollegeStatus but with the
reduce-based position of MemStorage. -/
def updateCollegeStatusMem (st : Storage) (collegeId : Nat)
    (status : CollegeStatus) (now : Nat) : Option College × Storage :=
  match st.colleges.find? (fun c => c.id == collegeId) with
  | none => (none, st)
  | some c =>
    let pos := memNextPosition (collegesInStatus st.colleges c.userId status)
    (some { c with status := status, position := pos, updatedAt := now },
     { st with
       colleges := st.colleges.map (fun b =>
         if b.id == collegeId then
           { b with status := status, position := pos, updatedAt := now }
         else b) })

/-- updateCollegePosition in both storage implementations. -/
def updateCollegePosition (st : Storage) (collegeId : Nat) (position : Int)
    (now : Nat) : Option College × Storage :=
  match st.colleges.find? (fun c => c.id == collegeId) with
  | none => (none, st)
  | some c =>
    (some { c with position := position, updatedAt := now },
     { st with
       colleges := st.colleges.map (fun b =>
         if b.id == collegeId then { b with position := position, updatedAt := now }
         else b) })

/-- deleteCollege in both storage implementations. -/
def deleteCollege (st : Storage) (collegeId : Nat) : Bool × Storage :=
  (st.colleges.any (fun c => c.id == collegeId),
   { st with colleges := st.colleges.filter (fun c => !(c.id == collegeId)) })

/-- Colleges of a user in one status, ordered by position, as returned by
getCollegesByStatus. -/
def getCollegesByStatus (st : Storage) (userId : Nat)
    (status : CollegeStatus) : List College :=
  stableSortBy (fun a b => decide (a.position ≤ b.position))
    (collegesInStatus st.colleges userId status)

/-- Folding max over a list commutes with an extra bound on the seed. -/
theorem foldl_max_max (ps : List Int) :
    ∀ a b : Int, ps.foldl max (max a b) = max a (ps.foldl max b) := by
  induction ps with
  | nil => intro a b; rfl
  | cons p ps ih =>
    intro a b
    simp only [List.foldl_cons]
    rw [max_assoc, ih]

/-- The seed is a lower bound of a max fold. -/
theorem seed_le_foldl_max (ps : List Int) : ∀ b : Int, b ≤ ps.foldl max b := by
  induction ps with
  | nil => intro b; exact le_refl b
  | cons p ps ih =>
    intro b
    simp only [List.foldl_cons]
    exact le_trans (le_max_left b p) (ih (max b p))

/-- Every member of a list is bounded by a max fold over it. -/
theorem mem_le_foldl_max (ps : List Int) :
    ∀ (b q : Int), q ∈ ps → q ≤ ps.foldl max b := by
  induction ps with
  | nil => intro b q hq; cases hq
  | cons p ps ih =>
    intro b q hq
    simp only [List.foldl_cons]
    rcases List.mem_cons.mp hq with h | h
    · subst h
      exact le_trans (le_max_right b q) (seed_le_foldl_max ps (max b q))
    · exact ih (max b p) q h

/-- The optional maximum of a nonempty list agrees with a max fold seeded
by the head. -/
theorem max?_cons_eq_foldl (p : Int) (ps : List Int) :
    (p :: ps).max? = some (ps.foldl max p) := by
  induction ps generalizing p with
  | nil => rfl
  | cons q qs ih =>
    rw [List.max?_cons, ih q, Option.elim_some, List.foldl_cons]
    rw [foldl_max_max qs p q]

/-- The two append-position computations agree on the spec formula. -/
theorem pgNextPosition_eq_spec (cols : List College) (userId : Nat)
    (status : CollegeStatus) :
    pgNextPosition (collegesInStatus cols userId status) =
      specNewPosition cols userId status := by
  unfold pgNextPosition specNewPosition
  cases h : (collegesInStatus cols userId status).map (fun c => c.position) with
  | nil => rfl
  | cons p ps => rw [max?_cons_eq_foldl]

/-- A member of a column sits strictly below the Postgres append
position of that column. -/
theorem position_lt_pgNext (group : List College) (b : College)
    (hb : b ∈ group) : b.position < pgNextPosition group := by
  unfold pgNextPosition
  cases h : group.map (fun c => c.position) with
  | nil =>
    exact absurd (List.mem_map_of_mem (fun c => c.position) hb) (by rw [h]; exact List.not_mem_nil _)
  | cons p ps =>
    show b.position < ps.foldl max p + 1
    have hmem : b.position ∈ p :: ps := by
      rw [← h]; exact List.mem_map_of_mem (fun c => c.position) hb
    have hle : b.position ≤ ps.foldl max p := by
      rcases List.mem_cons.mp hmem with h1 | h1
      · rw [h1]; exact seed_le_foldl_max ps p
      · exact mem_le_foldl_max ps p b.position h1
    omega

/-- A member of a column sits strictly below the MemStorage append
position of that column. -/
theorem position_lt_memNext (group : List College) (b : College)
    (hb : b ∈ group) : b.position < memNextPosition group := by
  unfold memNextPosition
  have hfold : group.foldl (fun m c => max m c.position) 0 =
      (group.map (fun c => c.position)).foldl max 0 := by
    rw [List.foldl_map]
  have hmem : b.position ∈ group.map (fun c => c.position) :=
    List.mem_map_of_mem (fun c => c.position) hb
  have hle : b.position ≤ (group.map (fun c => c.position)).foldl max 0 :=
    mem_le_foldl_max _ 0 b.position hmem
  omega

/-- When the target column is empty or contains a nonnegative position,
the MemStorage append position matches the Postgres one. -/
theorem memNext_eq_pgNext (group : List College)
    (h : group = [] ∨ ∃ b ∈ group, (0:Int) ≤ b.position) :
    memNextPosition group = pgNextPosition group := by
  rcases h with h | ⟨b, hb, hpos⟩
  · subst h; rfl
  · unfold memNextPosition pgNextPosition
    have hfold : group.foldl (fun m c => max m c.position) 0 =
        (group.map (fun c => c.position)).foldl max 0 := by
      rw [List.foldl_map]
    cases hmap : group.map (fun c => c.position) with
    | nil =>
      exact absurd (List.mem_map_of_mem (fun c => c.position) hb)
        (by rw [hmap]; exact List.not_mem_nil _)
    | cons p ps =>
      rw [hfold, hmap]
      have hmem : b.position ∈ p :: ps := by
        rw [← hmap]; exact List.mem_map_of_mem (fun c => c.position) hb
      have hbound : (0:Int) ≤ ps.foldl max p := by
        have : b.position ≤ ps.foldl max p := by
          rcases List.mem_cons.mp hmem with h1 | h1
          · rw [h1]; exact seed_le_foldl_max ps p
          · exact mem_le_foldl_max ps p b.position h1
        omega
      have : (p :: ps).foldl max 0 = max 0 (ps.foldl max p) := by
        simp only [List.foldl_cons]
        have : max (0:Int) p = max 0 p := rfl
        rw [show ps.foldl max (max 0 p) = max 0 (ps.foldl max p) from foldl_max_max ps 0 p]
      rw [this, max_eq_right hbound]

/-- State with one college placed at explicit position -1 in the
applying column (the insert schema accepts any number as position). -/
def stNegColumn : Storage :=
  (createCollegeMem emptyStorage 1 "Alpha" .applying (some (-1)) 0).2

/-- State with a second college auto-positioned in researching. -/
def stNegColumnTwo : Storage :=
  (createCollegeMem stNegColumn 1 "Beta" .researching none 1).2

/-- C6 counterexample: moving Beta into the applying column, whose only
occupant sits at position -1, gives position 1 under
MemStorage.updateCollegeStatus (its reduce starts at 0), while the
claimed formula max(existing positions) + 1 gives 0. -/
theorem c6_counterexample_mem_negative_column :
    (updateCollegeStatusMem stNegColumnTwo 2 .applying 2).1.map
      (fun c => c.position) = some 1 ∧
    specNewPosition stNegColumnTwo.colleges 1 .applying = 0 := by
  decide

/-- C6 (amended): updateCollegeStatus returns none and leaves the state
unchanged for an unknown id. For an existing college both
implementations set its status, bump updatedAt to the current time and
leave every other college row untouched; PostgresStorage sets the
position to exactly max(positions already in the new column) + 1, or 1
when the column is empty, while MemStorage folds max from 0, which
agrees with that formula whenever the target column is empty or has a
college at a nonnegative position but yields 1, not max + 1, when every
position in the column is negative. -/
theorem c6_update_status_append_position (st : Storage) (collegeId : Nat)
    (status : CollegeStatus) (now : Nat) :
    (st.colleges.find? (fun c => c.id == collegeId) = none →
      updateCollegeStatus st collegeId status now = (none, st) ∧
      updateCollegeStatusMem st collegeId status now = (none, st)) ∧
    (∀ c, st.colleges.find? (fun b => b.id == collegeId) = some c →
      (updateCollegeStatus st collegeId status now).1 =
        some { c with status := status,
                      position := specNewPosition st.colleges c.userId status,
                      updatedAt := now } ∧
      (updateCollegeStatusMem st collegeId status now).1 =
        some { c with
               status := status,
               position := memNextPosition (collegesInStatus st.colleges c.userId status),
               updatedAt := now } ∧
      (collegesInStatus st.colleges c.userId status = [] ∨
          (∃ b ∈ collegesInStatus st.colleges c.userId status, (0:Int) ≤ b.position) →
        memNextPosition (collegesInStatus st.colleges c.userId status) =
          specNewPosition st.colleges c.userId status) ∧
      (∀ b ∈ st.colleges, (b.id == collegeId) = false →
        b ∈ (updateCollegeStatus st collegeId status now).2.colleges ∧
        b ∈ (updateCollegeStatusMem st collegeId status now).2.colleges)) := by
  constructor
  · intro h
    constructor
    · simp only [updateCollegeStatus, h]
    · simp only [updateCollegeStatusMem, h]
  · intro c hc
    refine ⟨?_, ?_, ?_, ?_⟩
    · simp only [updateCollegeStatus, hc, pgNextPosition_eq_spec]
    · simp only [updateCollegeStatusMem, hc]
    · intro h
      rw [memNext_eq_pgNext _ h, pgNextPosition_eq_spec]
    · intro b hb hid
      constructor
      · simp only [updateCollegeStatus, hc]
        exact List.mem_map.mpr ⟨b, hb, by simp [hid]⟩
      · simp only [updateCollegeStatusMem, hc]
        exact List.mem_map.mpr ⟨b, hb, by simp [hid]⟩

/-- Concrete state for the C6 witness: two colleges of user 1, one in
each column of interest. -/
def stC6w : Storage :=
  (createCollege (createCollege emptyStorage 1 "Gamma" .applying none 0).2
    1 "Delta" .researching none 1).2

/-- Witness instantiating the amended C6 theorem at a concrete state,
for both the unknown-id case and the found case. -/
theorem c6_update_status_append_position_witness :
    (updateCollegeStatus stC6w 2 .applying 3).1 =
      some { id := 2, userId := 1, name := "Delta", status := .applying,
             position := specNewPosition stC6w.colleges 1 .applying,
             createdAt := 1, updatedAt := 3 } ∧
    updateCollegeStatus stC6w 99 .applying 3 = (none, stC6w) := by
  constructor
  · exact ((c6_update_status_append_position stC6w 2 .applying 3).2
      { id := 2, userId := 1, name := "Delta", status := .researching,
        position := 1, createdAt := 1, updatedAt := 1 } (by decide)).1
  · exact ((c6_update_status_append_position stC6w 99 .applying 3).1 (by decide)).1

/-- Operations the position-uniqueness claim ranges over: creating a
college through POST /api/colleges (which may carry an explicit
position) and changing a college status. -/
inductive CollegeOp
  | addCollege (userId : Nat) (name : String) (status : CollegeStatus)
      (posArg : Option Int) (now : Nat)
  | setStatus (collegeId : Nat) (status : CollegeStatus) (now : Nat)

/-- Apply one operation through the PostgresStorage embedding. -/
def applyCollegeOp (st : Storage) : CollegeOp → Storage
  | .addCollege uid n s p t => (createCollege st uid n s p t).2
  | .setStatus cid s t => (updateCollegeStatus st cid s t).2

/-- Run a sequence of college operations from a starting state. -/
def runCollegeOps (st : Storage) (ops : List CollegeOp) : Storage :=
  ops.foldl applyCollegeOp st

/-- True for operations that do not supply an explicit position. -/
def autoPositioned : CollegeOp → Bool
  | .addCollege _ _ _ posArg _ => posArg.isNone
  | .setStatus _ _ _ => true

/-- No two college rows of one user in one status column share a
position: any two rows agreeing on user, status and position coincide. -/
def PositionsUnique (st : Storage) : Prop :=
  ∀ a ∈ st.colleges, ∀ b ∈ st.colleges,
    a.userId = b.userId → a.status = b.status → a.position = b.position → a = b

/-- Serial-id well-formedness of the colleges table: ids stay below the
counter and identify rows uniquely. -/
def CollegeIdsOk (st : Storage) : Prop :=
  (∀ c ∈ st.colleges, c.id < st.nextCollegeId) ∧
  (∀ a ∈ st.colleges, ∀ b ∈ st.colleges, a.id = b.id → a = b)

/-- Creating a college without an explicit position preserves id
well-formedness and position uniqueness. -/
theorem createCollege_auto_step (st : Storage) (uid : Nat) (n : String)
    (s : CollegeStatus) (t : Nat) (hids : CollegeIdsOk st)
    (hpos : PositionsUnique st) :
    CollegeIdsOk (createCollege st uid n s none t).2 ∧
    PositionsUnique (createCollege st uid n s none t).2 := by
  obtain ⟨hbound, huniq⟩ := hids
  have hcols : (createCollege st uid n s none t).2.colleges =
      st.colleges ++
        [{ id := st.nextCollegeId, userId := uid, name := n, status := s,
           position := pgNextPosition (collegesInStatus st.colleges uid s),
           createdAt := t, updatedAt := t }] := rfl
  have hnext : (createCollege st uid n s none t).2.nextCollegeId =
      st.nextCollegeId + 1 := rfl
  set c : College :=
    { id := st.nextCollegeId, userId := uid, name := n, status := s,
      position := pgNextPosition (collegesInStatus st.colleges uid s),
      createdAt := t, updatedAt := t } with hcdef
  have hgroup : ∀ a ∈ st.colleges, a.userId = uid → a.status = s →
      a ∈ collegesInStatus st.colleges uid s := by
    intro a ha h1 h2
    exact List.mem_filter.mpr ⟨ha, by simp [h1, h2]⟩
  refine ⟨⟨?_, ?_⟩, ?_⟩
  · intro x hx
    rw [hcols] at hx
    rw [hnext]
    rcases List.mem_append.mp hx with h | h
    · exact Nat.lt_succ_of_lt (hbound x h)
    · rw [List.mem_singleton.mp h]
      exact Nat.lt_succ_self _
  · intro a ha b hb hid
    rw [hcols] at ha hb
    rcases List.mem_append.mp ha with h1 | h1 <;>
      rcases List.mem_append.mp hb with h2 | h2
    · exact huniq a h1 b h2 hid
    · rw [List.mem_singleton.mp h2] at hid
      exact absurd hid (Nat.ne_of_lt (hbound a h1))
    · rw [List.mem_singleton.mp h1] at hid
      exact absurd hid.symm (Nat.ne_of_lt (hbound b h2))
    · rw [List.mem_singleton.mp h1, List.mem_singleton.mp h2]
  · intro a ha b hb h1 h2 h3
    rw [hcols] at ha hb
    rcases List.mem_append.mp ha with ha1 | ha1 <;>
      rcases List.mem_append.mp hb with hb1 | hb1
    · exact hpos a ha1 b hb1 h1 h2 h3
    · rw [List.mem_singleton.mp hb1, hcdef] at h1 h2 h3
      dsimp only at h1 h2 h3
      have hag : a ∈ collegesInStatus st.colleges uid s := hgroup a ha1 h1 h2
      have := position_lt_pgNext _ a hag
      omega
    · rw [List.mem_singleton.mp ha1, hcdef] at h1 h2 h3
      dsimp only at h1 h2 h3
      have hbg : b ∈ collegesInStatus st.colleges uid s :=
        hgroup b hb1 h1.symm h2.symm
      have := position_lt_pgNext _ b hbg
      omega
    · rw [List.mem_singleton.mp ha1, List.mem_singleton.mp hb1]

/-- Changing a college status preserves id well-formedness and position
uniqueness. -/
theorem updateCollegeStatus_step (st : Storage) (cid : Nat)
    (s : CollegeStatus) (t : Nat) (hids : CollegeIdsOk st)
    (hpos : PositionsUnique st) :
    CollegeIdsOk (updateCollegeStatus st cid s t).2 ∧
    PositionsUnique (updateCollegeStatus st cid s t).2 := by
  obtain ⟨hbound, huniq⟩ := hids
  cases hfind : st.colleges.find? (fun c => c.id == cid) with
  | none =>
    simp only [updateCollegeStatus, hfind]
    exact ⟨⟨hbound, huniq⟩, hpos⟩
  | some c =>
    have hcmem : c ∈ st.colleges := List.mem_of_find?_eq_some hfind
    have hcid : c.id = cid := by
      have := List.find?_some hfind
      simpa using this
    have honly : ∀ a ∈ st.colleges, a.id = cid → a = c := by
      intro a ha h
      exact huniq a ha c hcmem (by rw [h, hcid])
    simp only [updateCollegeStatus, hfind]
    set P : Int := pgNextPosition (collegesInStatus st.colleges c.userId s) with hP
    set f : College → College := fun b =>
      if b.id == cid then { b with status := s, position := P, updatedAt := t }
      else b with hf
    have hfid : ∀ b : College, (f b).id = b.id := by
      intro b
      by_cases h : b.id = cid
      · simp [hf, h]
      · simp [hf, h]
    refine ⟨⟨?_, ?_⟩, ?_⟩
    · intro x hx
      rcases List.mem_map.mp hx with ⟨y, hy, rfl⟩
      rw [hfid]
      exact hbound y hy
    · intro a' ha' b' hb' hid
      rcases List.mem_map.mp ha' with ⟨a, ha, rfl⟩
      rcases List.mem_map.mp hb' with ⟨b, hb, rfl⟩
      rw [hfid, hfid] at hid
      rw [huniq a ha b hb hid]
    · intro a' ha' b' hb' h1 h2 h3
      rcases List.mem_map.mp ha' with ⟨a, ha, rfl⟩
      rcases List.mem_map.mp hb' with ⟨b, hb, rfl⟩
      by_cases ea : a.id = cid <;> by_cases eb : b.id = cid
      · have hac : a = c := honly a ha ea
        have hbc : b = c := honly b hb eb
        rw [hac, hbc]
      · have hac : a = c := honly a ha ea
        have hfa : f a = { c with status := s, position := P, updatedAt := t } := by
          rw [hac]; simp [hf, hcid]
        have hfb : f b = b := by simp [hf, eb]
        rw [hfa, hfb] at h1 h2 h3
        dsimp only at h1 h2 h3
        have hbg : b ∈ collegesInStatus st.colleges c.userId s :=
          List.mem_filter.mpr ⟨hb, by simp [h1.symm, h2.symm]⟩
        have := position_lt_pgNext _ b hbg
        rw [← hP] at this
        omega
      · have hbc : b = c := honly b hb eb
        have hfb : f b = { c with status := s, position := P, updatedAt := t } := by
          rw [hbc]; simp [hf, hcid]
        have hfa : f a = a := by simp [hf, ea]
        rw [hfa, hfb] at h1 h2 h3
        dsimp only at h1 h2 h3
        have hag : a ∈ collegesInStatus st.colleges c.userId s :=
          List.mem_filter.mpr ⟨ha, by simp [h1, h2]⟩
        have := position_lt_pgNext _ a hag
        rw [← hP] at this
        omega
      · have hfa : f a = a := by simp [hf, ea]
        have hfb : f b = b := by simp [hf, eb]
        rw [hfa, hfb] at h1 h2 h3 ⊢
        exact hpos a ha b hb h1 h2 h3

/-- One auto-positioned operation preserves both invariants. -/
theorem applyCollegeOp_step (st : Storage) (op : CollegeOp)
    (hids : CollegeIdsOk st) (hpos : PositionsUnique st)
    (hauto : autoPositioned op = true) :
    CollegeIdsOk (applyCollegeOp st op) ∧
    PositionsUnique (applyCollegeOp st op) := by
  cases op with
  | addCollege uid n s posArg t =>
    have : posArg = none := by
      cases posArg with
      | none => rfl
      | some p => simp [autoPositioned] at hauto
    rw [this]
    exact createCollege_auto_step st uid n s t ⟨hids.1, hids.2⟩ hpos
  | setStatus cid s t =>
    exact updateCollegeStatus_step st cid s t ⟨hids.1, hids.2⟩ hpos

/-- Auto-positioned sequences preserve both invariants. -/
theorem runCollegeOps_inv (ops : List CollegeOp) :
    ∀ st : Storage, CollegeIdsOk st → PositionsUnique st →
    (∀ op ∈ ops, autoPositioned op = true) →
    CollegeIdsOk (runCollegeOps st ops) ∧
    PositionsUnique (runCollegeOps st ops) := by
  induction ops with
  | nil => intro st hids hpos _; exact ⟨hids, hpos⟩
  | cons op ops ih =>
    intro st hids hpos hall
    have hstep := applyCollegeOp_step st op hids hpos
      (hall op (List.mem_cons_self op ops))
    exact ih (applyCollegeOp st op) hstep.1 hstep.2
      (fun o ho => hall o (List.mem_cons_of_mem op ho))

/-- C7 counterexample: creating one college auto-positioned (it gets
position 1) and then a second college with explicit position 1 in the
same user and status leaves two distinct rows sharing a position, so the
claim fails for sequences containing explicit-position creates. -/
theorem c7_counterexample_explicit_position :
    ¬ PositionsUnique (runCollegeOps emptyStorage
      [.addCollege 1 "Alpha" .researching none 0,
       .addCollege 1 "Beta" .researching (some 1) 1]) := by
  unfold PositionsUnique
  decide

/-- C7 (amended): after any sequence of college creations that do not
supply an explicit position and status updates, starting from the empty
storage, no two college rows of the same user and status share a
position. -/
theorem c7_positions_unique_auto_sequences (ops : List CollegeOp)
    (h : ∀ op ∈ ops, autoPositioned op = true) :
    PositionsUnique (runCollegeOps emptyStorage ops) := by
  have hids : CollegeIdsOk emptyStorage := by
    constructor
    · intro cc hcc; cases hcc
    · intro a ha; cases ha
  have hpos : PositionsUnique emptyStorage := by
    intro a ha; cases ha
  exact (runCollegeOps_inv ops emptyStorage hids hpos h).2

/-- Concrete auto-positioned operation sequence for the C7 witness. -/
def opsC7w : List CollegeOp :=
  [.addCollege 1 "Alpha" .researching none 0,
   .addCollege 1 "Beta" .researching none 1,
   .setStatus 1 .applying 2]

/-- Witness instantiating the amended C7 theorem on a concrete
sequence. -/
theorem c7_positions_unique_auto_sequences_witness :
    (∀ op ∈ opsC7w, autoPositioned op = true) ∧
    PositionsUnique (runCollegeOps emptyStorage opsC7w) :=
  ⟨by decide, c7_positions_unique_auto_sequences opsC7w (by decide)⟩

/-- Junction rows inserted by one share call, with consecutive serial
ids. -/
def mkSharedRows (startId advisorId now : Nat) : List Nat → List SharedChatSession
  | [] => []
  | sid :: rest =>
    { id := startId, advisorId := advisorId, sessionId := sid, createdAt := now } ::
      mkSharedRows (startId + 1) advisorId now rest

/-- getSharedChatSessions: session ids shared with one advisor. -/
def getSharedChatSessionIds (st : Storage) (advisorId : Nat) : List Nat :=
  (st.sharedChatSessions.filter (fun j => j.advisorId == advisorId)).map
    (fun j => j.sessionId)

/-- shareChatsWithAdvisor in both storage implementations: drop the
session ids already shared with this advisor, then insert one junction
row per remaining id. Ids occurring twice inside one call are kept
twice, since the filter only compares against the previously stored
rows. -/
def shareChatsWithAdvisor (st : Storage) (advisorId : Nat)
    (sessionIds : List Nat) (now : Nat) : Storage :=
  let existing := getSharedChatSessionIds st advisorId
  let newIds := sessionIds.filter (fun i => !(existing.contains i))
  { st with
    sharedChatSessions :=
      st.sharedChatSessions ++ mkSharedRows st.nextSharedId advisorId now newIds,
    nextSharedId := st.nextSharedId + newIds.length }

/-- unshareChatsWithAdvisor: delete exactly the matching pairs. -/
def unshareChatsWithAdvisor (st : Storage) (advisorId : Nat)
    (sessionIds : List Nat) : Storage :=
  { st with
    sharedChatSessions := st.sharedChatSessions.filter
      (fun j => !(j.advisorId == advisorId && sessionIds.contains j.sessionId)) }

/-- Number of junction rows recording one (advisor, session) pair. -/
def pairCount (st : Storage) (advisorId sessionId : Nat) : Nat :=
  st.sharedChatSessions.countP
    (fun j => j.advisorId == advisorId && j.sessionId == sessionId)

/-- At most one junction row exists per (advisor, session) pair. -/
def UniquePairs (st : Storage) : Prop :=
  ∀ advisorId sessionId : Nat, pairCount st advisorId sessionId ≤ 1

/-- Run a list of share calls (advisor id, session ids, timestamp). -/
def runShareCalls (st : Storage) (calls : List (Nat × List Nat × Nat)) : Storage :=
  calls.foldl (fun s c => shareChatsWithAdvisor s c.1 c.2.1 c.2.2) st

/-- Pair occurrences among freshly built junction rows reduce to
occurrences of the session id in the inserted id list. -/
theorem countP_mkSharedRows (aid now paid psid : Nat) :
    ∀ (startId : Nat) (ids : List Nat),
      (mkSharedRows startId aid now ids).countP
          (fun j => j.advisorId == paid && j.sessionId == psid) =
        if aid = paid then ids.countP (fun i => i == psid) else 0 := by
  intro startId ids
  induction ids generalizing startId with
  | nil => by_cases h : aid = paid <;> simp [mkSharedRows, h]
  | cons sid rest ih =>
    simp only [mkSharedRows, List.countP_cons]
    rw [ih]
    by_cases h : aid = paid
    · by_cases h2 : sid = psid <;> simp [h, h2]
    · simp [h]

/-- An already-recorded pair shows up in the shared-session id list. -/
theorem pair_mem_sessionIds (st : Storage) (aid psid : Nat)
    (h : 1 ≤ pairCount st aid psid) :
    psid ∈ getSharedChatSessionIds st aid := by
  unfold pairCount at h
  have hne : st.sharedChatSessions.countP
      (fun j => j.advisorId == aid && j.sessionId == psid) ≠ 0 := by omega
  rcases List.countP_pos_iff.mp (Nat.pos_of_ne_zero hne) with ⟨j, hj, hmatch⟩
  have h1 : j.advisorId = aid := by
    have := (Bool.and_eq_true _ _).mp hmatch
    simpa using this.1
  have h2 : j.sessionId = psid := by
    have := (Bool.and_eq_true _ _).mp hmatch
    simpa using this.2
  unfold getSharedChatSessionIds
  rw [← h2]
  exact List.mem_map_of_mem _ (List.mem_filter.mpr ⟨hj, by simp [h1]⟩)

/-- Effect of one share call on one pair count. -/
theorem shareChats_pairCount (st : Storage) (aid : Nat) (ids : List Nat)
    (now paid psid : Nat) :
    pairCount (shareChatsWithAdvisor st aid ids now) paid psid =
      pairCount st paid psid +
        (if aid = paid then
          (ids.filter (fun i => !((getSharedChatSessionIds st aid).contains i))).countP
            (fun i => i == psid)
         else 0) := by
  unfold shareChatsWithAdvisor pairCount
  simp only [List.countP_append]
  rw [countP_mkSharedRows]

/-- C9 counterexample: a single share call whose session-id list repeats
an id inserts two junction rows for the same (advisor, session) pair, so
after a sequence of share calls more than one row can exist for a
pair. -/
theorem c9_counterexample_duplicate_ids_in_one_call :
    pairCount (shareChatsWithAdvisor emptyStorage 1 [7, 7] 0) 1 7 = 2 := by
  decide

/-- C9 (amended): sharing a pair that is already shared inserts no new
junction row for it, and after any sequence of share calls whose
session-id lists are duplicate-free, at most one junction row exists per
(advisorId, sessionId) pair; a list with an id repeated inside one call
can still insert duplicates. -/
theorem c9_share_idempotent_per_pair :
    (∀ (st : Storage) (aid : Nat) (ids : List Nat) (now psid : Nat),
      1 ≤ pairCount st aid psid →
      pairCount (shareChatsWithAdvisor st aid ids now) aid psid =
        pairCount st aid psid) ∧
    (∀ (st : Storage) (calls : List (Nat × List Nat × Nat)),
      UniquePairs st → (∀ c ∈ calls, c.2.1.Nodup) →
      UniquePairs (runShareCalls st calls)) := by
  have hzero : ∀ (st : Storage) (aid : Nat) (ids : List Nat) (psid : Nat),
      psid ∈ getSharedChatSessionIds st aid →
      (ids.filter (fun i => !((getSharedChatSessionIds st aid).contains i))).countP
        (fun i => i == psid) = 0 := by
    intro st aid ids psid hmem
    apply List.countP_eq_zero.mpr
    intro i hi hieq
    have hkeep := (List.mem_filter.mp hi).2
    have : i = psid := by simpa using hieq
    rw [this] at hkeep
    simp at hkeep
    exact hkeep hmem
  have hstep : ∀ (st : Storage) (aid : Nat) (ids : List Nat) (now : Nat),
      UniquePairs st → ids.Nodup →
      UniquePairs (shareChatsWithAdvisor st aid ids now) := by
    intro st aid ids now huniq hnodup paid psid
    rw [shareChats_pairCount]
    by_cases h : aid = paid
    · subst h
      by_cases hin : psid ∈ getSharedChatSessionIds st aid
      · rw [if_pos rfl, hzero st aid ids psid hin]
        have := huniq aid psid
        omega
      · have hcount0 : pairCount st aid psid = 0 := by
          by_contra hne
          exact hin (pair_mem_sessionIds st aid psid (by omega))
        rw [if_pos rfl, hcount0]
        have hnodup2 : (ids.filter
            (fun i => !((getSharedChatSessionIds st aid).contains i))).Nodup :=
          List.Nodup.filter _ hnodup
        have : (ids.filter (fun i => !((getSharedChatSessionIds st aid).contains i))).countP
            (fun i => i == psid) =
            (ids.filter (fun i => !((getSharedChatSessionIds st aid).contains i))).count psid := rfl
        rw [this]
        have := List.nodup_iff_count_le_one.mp hnodup2 psid
        omega
    · rw [if_neg h]
      have := huniq paid psid
      omega
  constructor
  · intro st aid ids now psid hshared
    rw [shareChats_pairCount, if_pos rfl,
      hzero st aid ids psid (pair_mem_sessionIds st aid psid hshared)]
    omega
  · intro st calls
    induction calls generalizing st with
    | nil => intro h _; exact h
    | cons c cs ih =>
      intro h hall
      exact ih (shareChatsWithAdvisor st c.1 c.2.1 c.2.2)
        (hstep st c.1 c.2.1 c.2.2 h (hall c (List.mem_cons_self c cs)))
        (fun o ho => hall o (List.mem_cons_of_mem c ho))

/-- Witness instantiating both parts of the C9 theorem on concrete
data: re-sharing the pair (1, 7) leaves its count unchanged, and a
duplicate-free sequence of calls keeps all pairs unique. -/
theorem c9_share_idempotent_per_pair_witness :
    pairCount (shareChatsWithAdvisor (shareChatsWithAdvisor emptyStorage 1 [7] 0) 1 [7, 9] 1) 1 7 =
      pairCount (shareChatsWithAdvisor emptyStorage 1 [7] 0) 1 7 ∧
    UniquePairs (runShareCalls emptyStorage [(1, [7, 9], 0), (1, [7], 1), (2, [7], 2)]) := by
  constructor
  · exact c9_share_idempotent_per_pair.1 (shareChatsWithAdvisor emptyStorage 1 [7] 0) 1 [7, 9] 1 7 (by decide)
  · exact c9_share_idempotent_per_pair.2 emptyStorage [(1, [7, 9], 0), (1, [7], 1), (2, [7], 2)]
      (fun aid sid => by simp [pairCount, emptyStorage]) (by decide)

/-- getCollegeRecommendations: recommendations of one user, newest
first. -/
def getCollegeRecommendations (st : Storage) (userId : Nat) :
    List CollegeRecommendation :=
  stableSortBy (fun a b => decide (b.createdAt ≤ a.createdAt))
    (st.recommendations.filter (fun r => r.userId == userId))

/-- createCollegeRecommendation. -/
def createCollegeRecommendation (st : Storage) (userId : Nat)
    (name description reason : String) (acceptanceRate : Option Int)
    (recommendedBy advisorNotes : Option String) (now : Nat) :
    CollegeRecommendation × Storage :=
  let r : CollegeRecommendation :=
    { id := st.nextRecommendationId, userId := userId, name := name,
      description := description, reason := reason,
      acceptanceRate := acceptanceRate, recommendedBy := recommendedBy,
      advisorNotes := advisorNotes, createdAt := now, updatedAt := now }
  (r,
   { st with
     recommendations := st.recommendations ++ [r],
     nextRecommendationId := st.nextRecommendationId + 1 })

/-- deleteCollegeRecommendation. -/
def deleteCollegeRecommendation (st : Storage) (recommendationId : Nat) :
    Bool × Storage :=
  (st.recommendations.any (fun r => r.id == recommendationId),
   { st with
     recommendations := st.recommendations.filter
       (fun r => !(r.id == recommendationId)) })

/-- HTTP outcomes the embedded route handlers distinguish. -/
inductive ApiStatus
  | ok
  | created
  | badRequest
  | unauthorized
  | forbidden
  | notFound
  | serverError
deriving DecidableEq

/-- POST /api/recommendations/:recommendationId/convert: find the
recommendation among the requesting users own recommendations (404 when
absent), create a college from its name with the requested status, then
delete the recommendation. The insertFails flag models the college
insert throwing, which the try/catch turns into an error response via
next(error) before the delete statement runs. -/
def convertRecommendationRoute (st : Storage) (user : Option Nat)
    (recommendationId : Nat) (status : CollegeStatus) (insertFails : Bool)
    (now : Nat) : ApiStatus × Option College × Storage :=
  match user with
  | none => (.unauthorized, none, st)
  | some uid =>
    match (getCollegeRecommendations st uid).find?
        (fun r => r.id == recommendationId) with
    | none => (.notFound, none, st)
    | some r =>
      if insertFails then (.serverError, none, st)
      else
        let res := createCollege st uid r.name status none now
        (.ok, some res.1, (deleteCollegeRecommendation res.2 recommendationId).2)

/-- C5: converting a recommendation 404s when the id is not among the
requesting users own recommendations (state untouched); on success it
creates a college carrying the recommendation name and the requested
status and removes the recommendation, and when the college insert
fails the recommendation is not deleted and the state is untouched. -/
theorem c5_convert_atomic (st : Storage) (uid recId : Nat)
    (status : CollegeStatus) (fails : Bool) (now : Nat) :
    ((getCollegeRecommendations st uid).find? (fun r => r.id == recId) = none →
      convertRecommendationRoute st (some uid) recId status fails now =
        (.notFound, none, st)) ∧
    (∀ r, (getCollegeRecommendations st uid).find? (fun r0 => r0.id == recId) = some r →
      (fails = true →
        convertRecommendationRoute st (some uid) recId status fails now =
          (.serverError, none, st)) ∧
      (fails = false →
        ∃ c st2,
          convertRecommendationRoute st (some uid) recId status fails now =
            (.ok, some c, st2) ∧
          c.name = r.name ∧ c.status = status ∧ c.userId = uid ∧
          c ∈ st2.colleges ∧
          (∀ r2 ∈ st2.recommendations, (r2.id == recId) = false) ∧
          st2.recommendations =
            st.recommendations.filter (fun r2 => !(r2.id == recId)) ∧
          (∀ b ∈ st.colleges, b ∈ st2.colleges))) := by
  constructor
  · intro h
    simp only [convertRecommendationRoute, h]
  · intro r hr
    constructor
    · intro hf
      simp only [convertRecommendationRoute, hr, hf, if_true]
    · intro hf
      subst hf
      refine ⟨(createCollege st uid r.name status none now).1,
        (deleteCollegeRecommendation (createCollege st uid r.name status none now).2 recId).2,
        ?_, rfl, rfl, rfl, ?_, ?_, ?_, ?_⟩
      · simp only [convertRecommendationRoute, hr, if_false, Bool.false_eq_true]
      · exact List.mem_append.mpr (Or.inr (List.mem_singleton.mpr rfl))
      · intro r2 hr2
        have := (List.mem_filter.mp hr2).2
        simpa using this
      · rfl
      · intro b hb
        exact List.mem_append.mpr (Or.inl hb)

/-- Concrete state for the C5 witness: user 1 owns recommendation 42. -/
def stC5w : Storage :=
  { emptyStorage with
    recommendations :=
      [{ id := 42, userId := 1, name := "Reed College", description := "d",
         reason := "why", acceptanceRate := none, recommendedBy := none,
         advisorNotes := none, createdAt := 0, updatedAt := 0 }],
    nextRecommendationId := 43 }

/-- Witness instantiating the C5 theorem on a concrete conversion. -/
theorem c5_convert_atomic_witness :
    ∃ c st2,
      convertRecommendationRoute stC5w (some 1) 42 .applying false 5 =
        (.ok, some c, st2) ∧
      c.name = "Reed College" ∧ c.status = .applying ∧ c.userId = 1 ∧
      c ∈ st2.colleges ∧
      (∀ r2 ∈ st2.recommendations, (r2.id == 42) = false) := by
  have h := ((c5_convert_atomic stC5w 1 42 .applying false 5).2
    { id := 42, userId := 1, name := "Reed College", description := "d",
      reason := "why", acceptanceRate := none, recommendedBy := none,
      advisorNotes := none, createdAt := 0, updatedAt := 0 } (by decide)).2 rfl
  obtain ⟨c, st2, h1, h2, h3, h4, h5, h6, _, _⟩ := h
  exact ⟨c, st2, h1, h2, h3, h4, h5, h6⟩

/-- getChatSession: select a chat session by id. -/
def getChatSession (st : Storage) (sessionId : Nat) : Option ChatSession :=
  st.chatSessions.find? (fun s => s.id == sessionId)

/-- updateChatSessionTitle: set the title and bump updatedAt. -/
def updateChatSessionTitle (st : Storage) (sessionId : Nat) (title : String)
    (now : Nat) : Option ChatSession × Storage :=
  match st.chatSessions.find? (fun s => s.id == sessionId) with
  | none => (none, st)
  | some s =>
    (some { s with title := title, updatedAt := now },
     { st with
       chatSessions := st.chatSessions.map (fun s0 =>
         if s0.id == sessionId then { s0 with title := title, updatedAt := now }
         else s0) })

/-- PATCH /api/colleges/:collegeId/status: after the session check the
handler calls the storage update directly; it never consults the
ownership of the college row. -/
def patchCollegeStatusRoute (st : Storage) (user : Option Nat)
    (collegeId : Nat) (status : CollegeStatus) (now : Nat) :
    ApiStatus × Storage :=
  match user with
  | none => (.unauthorized, st)
  | some _ =>
    match updateCollegeStatus st collegeId status now with
    | (none, st2) => (.notFound, st2)
    | (some _, st2) => (.ok, st2)

/-- PATCH /api/colleges/:collegeId/position: validates the number is
nonnegative, then updates with no ownership check. -/
def patchCollegePositionRoute (st : Storage) (user : Option Nat)
    (collegeId : Nat) (position : Int) (now : Nat) : ApiStatus × Storage :=
  match user with
  | none => (.unauthorized, st)
  | some _ =>
    if position < 0 then (.badRequest, st)
    else
      match updateCollegePosition st collegeId position now with
      | (none, st2) => (.notFound, st2)
      | (some _, st2) => (.ok, st2)

/-- DELETE /api/colleges/:collegeId: deletes by id with no ownership
check; a missing row surfaces as a 500, not a 404. -/
def deleteCollegeRoute (st : Storage) (user : Option Nat)
    (collegeId : Nat) : ApiStatus × Storage :=
  match user with
  | none => (.unauthorized, st)
  | some _ =>
    let res := deleteCollege st collegeId
    if res.1 then (.ok, res.2) else (.serverError, res.2)

/-- DELETE /api/recommendations/:recommendationId: deletes by id with no
ownership check. -/
def deleteRecommendationRoute (st : Storage) (user : Option Nat)
    (recommendationId : Nat) : ApiStatus × Storage :=
  match user with
  | none => (.unauthorized, st)
  | some _ =>
    let res := deleteCollegeRecommendation st recommendationId
    if res.1 then (.ok, res.2) else (.serverError, res.2)

/-- PATCH /api/advisors/:advisorId/status: updates by id with no
ownership check. -/
def patchAdvisorStatusRoute (st : Storage) (user : Option Nat)
    (advisorId : Nat) (isActive : Bool) (now : Nat) : ApiStatus × Storage :=
  match user with
  | none => (.unauthorized, st)
  | some _ =>
    match updateAdvisorActiveStatus st advisorId isActive now with
    | (none, st2) => (.notFound, st2)
    | (some _, st2) => (.ok, st2)

/-- DELETE /api/advisors/:advisorId: deletes by id with no ownership
check. -/
def deleteAdvisorRoute (st : Storage) (user : Option Nat)
    (advisorId : Nat) : ApiStatus × Storage :=
  match user with
  | none => (.unauthorized, st)
  | some _ =>
    let res := deleteAdvisor st advisorId
    if res.1 then (.ok, res.2) else (.serverError, res.2)

/-- PATCH /api/chat/sessions/:sessionId: this handler, unlike the ones
above, does check ownership and answers 403 before mutating. -/
def patchChatSessionTitleRoute (st : Storage) (user : Option Nat)
    (sessionId : Nat) (title : String) (now : Nat) : ApiStatus × Storage :=
  match user with
  | none => (.unauthorized, st)
  | some uid =>
    if title == "" then (.badRequest, st)
    else
      match getChatSession st sessionId with
      | none => (.notFound, st)
      | some s =>
        if !(s.userId == uid) then (.forbidden, st)
        else (.ok, (updateChatSessionTitle st sessionId title now).2)

/-- Membership is invariant under sorted insertion. -/
theorem mem_sortedInsert {α : Type} (le : α → α → Bool) (a x : α) :
    ∀ l : List α, x ∈ sortedInsert le a l ↔ x = a ∨ x ∈ l := by
  intro l
  induction l with
  | nil => simp [sortedInsert]
  | cons b bs ih =>
    simp only [sortedInsert]
    by_cases h : le a b = true
    · simp [h, List.mem_cons]
    · simp only [h, if_neg, Bool.false_eq_true, if_false, List.mem_cons, ih]
      tauto

/-- Membership is invariant under the stable sort. -/
theorem mem_stableSortBy {α : Type} (le : α → α → Bool) (x : α) :
    ∀ l : List α, x ∈ stableSortBy le l ↔ x ∈ l := by
  intro l
  induction l with
  | nil => simp [stableSortBy]
  | cons b bs ih =>
    simp only [stableSortBy, List.foldr_cons] at *
    rw [mem_sortedInsert, ih, List.mem_cons]

/-- State for the C2 counterexample: college 1 belongs to user 1. -/
def stC2 : Storage := (createCollege emptyStorage 1 "MIT" .researching none 0).2

/-- C2 counterexample: a DELETE /api/colleges/1 request authenticated as
user 2 deletes the college of user 1 and answers 200, instead of
failing with ForbiddenError before any mutation. -/
theorem c2_counterexample_cross_user_delete :
    (deleteCollegeRoute stC2 (some 2) 1).1 = .ok ∧
    (deleteCollegeRoute stC2 (some 2) 1).2.colleges = [] := by
  decide

/-- C2 (amended): only the chat-session handlers check ownership and
answer 403 before mutating. The college status and position updates,
college deletion, recommendation deletion, and advisor update and
deletion act purely on the id: their outcome is the same whichever
authenticated user sends the request and is never 403, so they mutate
resources of other users. Converting a recommendation does scope its
lookup to the requesting user, failing with 404 (not 403) and no
mutation when the recommendation belongs to someone else. -/
theorem c2_mutations_skip_ownership :
    (∀ (st : Storage) (u1 u2 cid : Nat) (s : CollegeStatus) (now : Nat),
      patchCollegeStatusRoute st (some u1) cid s now =
        patchCollegeStatusRoute st (some u2) cid s now ∧
      (patchCollegeStatusRoute st (some u1) cid s now).1 ≠ .forbidden) ∧
    (∀ (st : Storage) (u1 u2 cid : Nat) (p : Int) (now : Nat),
      patchCollegePositionRoute st (some u1) cid p now =
        patchCollegePositionRoute st (some u2) cid p now ∧
      (patchCollegePositionRoute st (some u1) cid p now).1 ≠ .forbidden) ∧
    (∀ (st : Storage) (u1 u2 cid : Nat),
      deleteCollegeRoute st (some u1) cid = deleteCollegeRoute st (some u2) cid ∧
      (deleteCollegeRoute st (some u1) cid).1 ≠ .forbidden) ∧
    (∀ (st : Storage) (u1 u2 rid : Nat),
      deleteRecommendationRoute st (some u1) rid =
        deleteRecommendationRoute st (some u2) rid ∧
      (deleteRecommendationRoute st (some u1) rid).1 ≠ .forbidden) ∧
    (∀ (st : Storage) (u1 u2 aid : Nat) (b : Bool) (now : Nat),
      patchAdvisorStatusRoute st (some u1) aid b now =
        patchAdvisorStatusRoute st (some u2) aid b now ∧
      (patchAdvisorStatusRoute st (some u1) aid b now).1 ≠ .forbidden) ∧
    (∀ (st : Storage) (u1 u2 aid : Nat),
      deleteAdvisorRoute st (some u1) aid = deleteAdvisorRoute st (some u2) aid ∧
      (deleteAdvisorRoute st (some u1) aid).1 ≠ .forbidden) ∧
    (∀ (st : Storage) (uid rid : Nat) (s : CollegeStatus) (fails : Bool) (now : Nat),
      (∀ r ∈ st.recommendations, r.id = rid → r.userId ≠ uid) →
      convertRecommendationRoute st (some uid) rid s fails now =
        (.notFound, none, st)) ∧
    (∀ (st : Storage) (uid sid : Nat) (title : String) (now : Nat)
        (s : ChatSession),
      getChatSession st sid = some s → s.userId ≠ uid → title ≠ "" →
      patchChatSessionTitleRoute st (some uid) sid title now =
        (.forbidden, st)) := by
  refine ⟨?_, ?_, ?_, ?_, ?_, ?_, ?_, ?_⟩
  · intro st u1 u2 cid s now
    refine ⟨rfl, ?_⟩
    unfold patchCollegeStatusRoute
    rcases h : updateCollegeStatus st cid s now with ⟨o, st2⟩
    cases o <;> simp
  · intro st u1 u2 cid p now
    refine ⟨rfl, ?_⟩
    unfold patchCollegePositionRoute
    by_cases hp : p < 0
    · simp [hp]
    · rcases h : updateCollegePosition st cid p now with ⟨o, st2⟩
      cases o <;> simp [hp, h]
  · intro st u1 u2 cid
    refine ⟨rfl, ?_⟩
    unfold deleteCollegeRoute
    by_cases h : (deleteCollege st cid).1 = true <;> simp [h]
  · intro st u1 u2 rid
    refine ⟨rfl, ?_⟩
    unfold deleteRecommendationRoute
    by_cases h : (deleteCollegeRecommendation st rid).1 = true <;> simp [h]
  · intro st u1 u2 aid b now
    refine ⟨rfl, ?_⟩
    unfold patchAdvisorStatusRoute
    rcases h : updateAdvisorActiveStatus st aid b now with ⟨o, st2⟩
    cases o <;> simp [h]
  · intro st u1 u2 aid
    refine ⟨rfl, ?_⟩
    unfold deleteAdvisorRoute
    by_cases h : (deleteAdvisor st aid).1 = true <;> simp [h]
  · intro st uid rid s fails now h
    have hnone : (getCollegeRecommendations st uid).find?
        (fun r => r.id == rid) = none := by
      apply List.find?_eq_none.mpr
      intro r hr
      have hr2 : r ∈ st.recommendations.filter (fun r0 => r0.userId == uid) :=
        (mem_stableSortBy _ _ _).mp hr
      have hmem := (List.mem_filter.mp hr2).1
      have huid : r.userId = uid := by
        simpa using (List.mem_filter.mp hr2).2
      intro hid
      exact h r hmem (by simpa using hid) huid
    simp only [convertRecommendationRoute, hnone]
  · intro st uid sid title now s hs howner htitle
    unfold patchChatSessionTitleRoute
    have ht : (title == "") = false := by
      simpa using htitle
    rw [ht]
    simp only [Bool.false_eq_true, if_false, hs]
    have : (s.userId == uid) = false := by
      simpa using howner
    rw [this]
    rfl

/-- State for the C2 witness: recommendation 42 and chat session 7 both
belong to user 1. -/
def stC2w : Storage :=
  { emptyStorage with
    recommendations :=
      [{ id := 42, userId := 1, name := "Reed College", description := "d",
         reason := "why", acceptanceRate := none, recommendedBy := none,
         advisorNotes := none, createdAt := 0, updatedAt := 0 }],
    chatSessions :=
      [{ id := 7, userId := 1, title := "Essays", createdAt := 0, updatedAt := 0 }],
    nextRecommendationId := 43, nextSessionId := 8 }

/-- Witness instantiating the hypothesis-bearing parts of the C2
theorem: user 2 converting the recommendation of user 1 gets 404 with no
mutation, and user 2 renaming the session of user 1 gets 403. -/
theorem c2_mutations_skip_ownership_witness :
    convertRecommendationRoute stC2w (some 2) 42 .applying false 1 =
      (.notFound, none, stC2w) ∧
    patchChatSessionTitleRoute stC2w (some 2) 7 "Plans" 1 =
      (.forbidden, stC2w) := by
  constructor
  · exact (c2_mutations_skip_ownership.2.2.2.2.2.2.1) stC2w 2 42 .applying false 1
      (by decide)
  · exact (c2_mutations_skip_ownership.2.2.2.2.2.2.2) stC2w 2 7 "Plans" 1
      { id := 7, userId := 1, title := "Essays", createdAt := 0, updatedAt := 0 }
      (by decide) (by decide) (by decide)

/-- User slice exposed by the shared view: username and profile
description only. -/
structure SharedUserView where
  username : String
  profileDescription : Option String
deriving DecidableEq

/-- Advisor slice exposed by the shared view. -/
structure SharedAdvisorView where
  name : String
  advisorType : AdvisorKind
deriving DecidableEq

/-- The advisor-facing aggregate of GET /api/shared/:shareToken. -/
structure SharedProfileView where
  advisor : SharedAdvisorView
  user : SharedUserView
  colleges : List College
  recommendations : List CollegeRecommendation
  sharedChatSessions : List ChatSession
deriving DecidableEq

/-- PostgresStorage.getSharedChatSessionsForAdvisor: resolve the token
(note: without the isActive filter), then inner-join the junction rows
of that advisor with the chat sessions table. -/
def getSharedChatSessionsForAdvisor (st : Storage) (token : String) :
    List ChatSession :=
  match getAdvisorByShareToken st token with
  | none => []
  | some a =>
    (st.sharedChatSessions.filter (fun j => j.advisorId == a.id)).filterMap
      (fun j => st.chatSessions.find? (fun s0 => s0.id == j.sessionId))

/-- GET /api/shared/:shareToken: resolve the advisor, load its owning
user, and assemble the aggregate from the three college columns, the
recommendations and the shared chat sessions. Only username and
profileDescription of the user are copied out. -/
def sharedProfileView (st : Storage) (token : String) :
    Option SharedProfileView :=
  match getAdvisorByShareToken st token with
  | none => none
  | some a =>
    match getUser st a.userId with
    | none => none
    | some u =>
      some
        { advisor := { name := a.name, advisorType := a.advisorType },
          user := { username := u.username,
                    profileDescription := u.profileDescription },
          colleges :=
            getCollegesByStatus st a.userId .applying ++
            getCollegesByStatus st a.userId .researching ++
            getCollegesByStatus st a.userId .notApplying,
          recommendations := getCollegeRecommendations st a.userId,
          sharedChatSessions := getSharedChatSessionsForAdvisor st token }

/-- Predicate transport along an equal boolean predicate. -/
theorem find?_congr_pred {α : Type} (p q : α → Bool) (h : ∀ a, p a = q a)
    (l : List α) : l.find? p = l.find? q := by
  have : p = q := funext h
  rw [this]

/-- Pointwise-equal functions give equal filterMap results. -/
theorem filterMap_congr_mem {α β : Type} (F G : α → Option β) :
    ∀ l : List α, (∀ a ∈ l, F a = G a) → l.filterMap F = l.filterMap G := by
  intro l
  induction l with
  | nil => intro _; rfl
  | cons a as ih =>
    intro h
    simp only [List.filterMap_cons]
    rw [h a (List.mem_cons_self a as), ih (fun b hb => h b (List.mem_cons_of_mem a hb))]

/-- C3: for a resolved share token the aggregate exposes of the user
only the username and profile description, its shared chat session list
draws solely on junction rows of that advisor (first conjunct), and the
whole view is unchanged by rewriting passwords and onboarding data of
any user, all chat message contents, and any chat session not in the
shared set of that advisor (second conjunct). -/
theorem c3_shared_view_scoped_and_independent :
    (∀ (st : Storage) (token : String) (v : SharedProfileView),
      sharedProfileView st token = some v →
      ∀ s ∈ v.sharedChatSessions,
        ∃ a, getAdvisorByShareToken st token = some a ∧
          s ∈ st.chatSessions ∧
          ∃ j ∈ st.sharedChatSessions, j.advisorId = a.id ∧ j.sessionId = s.id) ∧
    (∀ (st st2 : Storage) (token : String) (a : Advisor),
      getAdvisorByShareToken st token = some a → a.isActive = true →
      st2.advisors = st.advisors →
      st2.colleges = st.colleges →
      st2.recommendations = st.recommendations →
      st2.sharedChatSessions = st.sharedChatSessions →
      ∀ (f : User → User) (g : ChatSession → ChatSession),
        st2.users = st.users.map f →
        (∀ u, (f u).id = u.id ∧ (f u).username = u.username ∧
          (f u).profileDescription = u.profileDescription) →
        st2.chatSessions = st.chatSessions.map g →
        (∀ s0, (g s0).id = s0.id) →
        (∀ s0, (∃ j ∈ st.sharedChatSessions,
            j.advisorId = a.id ∧ j.sessionId = s0.id) → g s0 = s0) →
        sharedProfileView st2 token = sharedProfileView st token) := by
  constructor
  · intro st token v hv s hs
    cases hadv : getAdvisorByShareToken st token with
    | none => simp [sharedProfileView, hadv] at hv
    | some a =>
      cases hu : getUser st a.userId with
      | none => simp [sharedProfileView, hadv, hu] at hv
      | some u =>
        refine ⟨a, rfl, ?_⟩
        have hv2 : v.sharedChatSessions = getSharedChatSessionsForAdvisor st token := by
          simp only [sharedProfileView, hadv, hu, Option.some.injEq] at hv
          rw [← hv]
        rw [hv2] at hs
        simp only [getSharedChatSessionsForAdvisor, hadv] at hs
        rcases List.mem_filterMap.mp hs with ⟨j, hj, hfind⟩
        have hjmem := (List.mem_filter.mp hj).1
        have hjadv : j.advisorId = a.id := by
          simpa using (List.mem_filter.mp hj).2
        have hsid : s.id = j.sessionId := by
          simpa using List.find?_some hfind
        exact ⟨List.mem_of_find?_eq_some hfind, j, hjmem, hjadv, hsid.symm⟩
  · intro st st2 token a hadv hact hadv2 hcol2 hrec2 hsh2 f g husers hf hsess hgid hgshared
    have hadvsame : getAdvisorByShareToken st2 token = some a := by
      unfold getAdvisorByShareToken
      rw [hadv2]
      exact hadv
    have huser : getUser st2 a.userId = Option.map f (getUser st a.userId) := by
      unfold getUser
      rw [husers, List.find?_map]
      rw [find?_congr_pred ((fun u => u.id == a.userId) ∘ f)
        (fun u => u.id == a.userId) (fun u => by simp [Function.comp, (hf u).1])]
    have hcolumns : ∀ status : CollegeStatus,
        getCollegesByStatus st2 a.userId status =
          getCollegesByStatus st a.userId status := by
      intro status
      unfold getCollegesByStatus collegesInStatus
      rw [hcol2]
    have hrecs : getCollegeRecommendations st2 a.userId =
        getCollegeRecommendations st a.userId := by
      unfold getCollegeRecommendations
      rw [hrec2]
    have hshared : getSharedChatSessionsForAdvisor st2 token =
        getSharedChatSessionsForAdvisor st token := by
      unfold getSharedChatSessionsForAdvisor
      rw [hadvsame, hadv, hsh2]
      apply filterMap_congr_mem
      intro j hj
      have hjadv : j.advisorId = a.id := by
        simpa using (List.mem_filter.mp hj).2
      rw [hsess, List.find?_map]
      rw [find?_congr_pred ((fun s0 => s0.id == j.sessionId) ∘ g)
        (fun s0 => s0.id == j.sessionId) (fun s0 => by simp [Function.comp, hgid s0])]
      cases hfind : st.chatSessions.find? (fun s0 => s0.id == j.sessionId) with
      | none => rfl
      | some s0 =>
        have hsid : s0.id = j.sessionId := by
          simpa using List.find?_some hfind
        have : g s0 = s0 :=
          hgshared s0 ⟨j, (List.mem_filter.mp hj).1, hjadv, hsid.symm⟩
        simp [this]
    unfold sharedProfileView
    rw [hadvsame, hadv]
    dsimp only
    rw [huser]
    cases hu : getUser st a.userId with
    | none => rfl
    | some u =>
      dsimp only [Option.map]
      rw [hcolumns .applying, hcolumns .researching, hcolumns .notApplying,
        hrecs, hshared, (hf u).2.1, (hf u).2.2]

/-- Base state for the C3 witness: user 1 with a password and profile,
advisor 1 with token tok-3, session 7 shared with the advisor, session
9 unshared, one college, one recommendation, one chat message. -/
def stC3wA : Storage :=
  { emptyStorage with
    users := [{ id := 1, username := "alice", password := "secret-hash-1",
                profileDescription := some "This student is curious.",
                onboarding := storageDefaultOnboarding }],
    colleges := [{ id := 1, userId := 1, name := "MIT", status := .applying,
                   position := 1, createdAt := 0, updatedAt := 0 }],
    chatSessions :=
      [{ id := 7, userId := 1, title := "Essays", createdAt := 0, updatedAt := 0 },
       { id := 9, userId := 1, title := "Private", createdAt := 0, updatedAt := 0 }],
    chatMessages := [{ id := 1, sessionId := 9, content := "secret plans",
                       sender := .user, attachments := [], createdAt := 0 }],
    advisors := [{ id := 1, userId := 1, name := "Ms. Lee",
                   advisorType := .schoolCounselor, shareToken := "tok-3",
                   isActive := true, createdAt := 0, updatedAt := 0 }],
    recommendations :=
      [{ id := 1, userId := 1, name := "Reed College", description := "d",
         reason := "why", acceptanceRate := none, recommendedBy := none,
         advisorNotes := none, createdAt := 0, updatedAt := 0 }],
    sharedChatSessions := [{ id := 1, advisorId := 1, sessionId := 7, createdAt := 0 }],
    nextUserId := 2, nextCollegeId := 2, nextSessionId := 10,
    nextMessageId := 2, nextAdvisorId := 2, nextRecommendationId := 2,
    nextSharedId := 2 }

/-- Variant of the base state with a changed password and onboarding,
a rewritten unshared session title, and different message contents. -/
def stC3wB : Storage :=
  { stC3wA with
    users := [{ id := 1, username := "alice", password := "other-hash-2",
                profileDescription := some "This student is curious.",
                onboarding := registerFallbackOnboarding }],
    chatSessions :=
      [{ id := 7, userId := 1, title := "Essays", createdAt := 0, updatedAt := 0 },
       { id := 9, userId := 1, title := "Redacted", createdAt := 0, updatedAt := 0 }],
    chatMessages := [{ id := 1, sessionId := 9, content := "edited plans",
                       sender := .user, attachments := [], createdAt := 3 }] }

/-- The shared session of the witness states. -/
def sessC3w : ChatSession :=
  { id := 7, userId := 1, title := "Essays", createdAt := 0, updatedAt := 0 }

/-- The concrete aggregate served for the witness base state. -/
def viewC3w : SharedProfileView :=
  { advisor := { name := "Ms. Lee", advisorType := .schoolCounselor },
    user := { username := "alice",
              profileDescription := some "This student is curious." },
    colleges := [{ id := 1, userId := 1, name := "MIT", status := .applying,
                   position := 1, createdAt := 0, updatedAt := 0 }],
    recommendations :=
      [{ id := 1, userId := 1, name := "Reed College", description := "d",
         reason := "why", acceptanceRate := none, recommendedBy := none,
         advisorNotes := none, createdAt := 0, updatedAt := 0 }],
    sharedChatSessions := [sessC3w] }

/-- Witness instantiating both halves of the C3 theorem on concrete
states: the shared session of the served view is backed by a junction
row of the advisor, and the view is unchanged by the password,
onboarding, message and unshared-session edits of the variant state. -/
theorem c3_shared_view_scoped_and_independent_witness :
    (∃ a, getAdvisorByShareToken stC3wA "tok-3" = some a ∧
      sessC3w ∈ stC3wA.chatSessions ∧
      ∃ j ∈ stC3wA.sharedChatSessions,
        j.advisorId = a.id ∧ j.sessionId = sessC3w.id) ∧
    sharedProfileView stC3wB "tok-3" = sharedProfileView stC3wA "tok-3" := by
  constructor
  · exact c3_shared_view_scoped_and_independent.1 stC3wA "tok-3" viewC3w
      (by decide) sessC3w (by decide)
  · refine c3_shared_view_scoped_and_independent.2 stC3wA stC3wB "tok-3"
      { id := 1, userId := 1, name := "Ms. Lee", advisorType := .schoolCounselor,
        shareToken := "tok-3", isActive := true, createdAt := 0, updatedAt := 0 }
      (by decide) rfl rfl rfl rfl rfl
      (fun u => if u.id == 1 then
        { u with password := "other-hash-2", onboarding := registerFallbackOnboarding }
        else u)
      (fun s0 => if s0.id == 9 then { s0 with title := "Redacted" } else s0)
      (by decide) ?_ (by decide) ?_ ?_
    · intro u
      by_cases h : u.id = 1 <;> simp [h]
    · intro s0
      by_cases h : s0.id = 9 <;> simp [h]
    · rintro s0 ⟨j, hj, hja, hjs⟩
      have hj1 : j = { id := 1, advisorId := 1, sessionId := 7, createdAt := 0 } := by
        simpa [stC3wA] using hj
      rw [hj1] at hjs
      have : s0.id = 7 := hjs.symm
      simp [this]

/-- createChatMessage in both storage implementations: bump the updatedAt
of the session, then append the message row. -/
def createChatMessage (st : Storage) (sessionId : Nat) (content : String)
    (sender : Sender) (attachments : List FileAttachment) (now : Nat) :
    ChatMessage × Storage :=
  let m : ChatMessage :=
    { id := st.nextMessageId, sessionId := sessionId, content := content,
      sender := sender, attachments := attachments, createdAt := now }
  (m,
   { st with
     chatSessions := st.chatSessions.map (fun s =>
       if s.id == sessionId then { s with updatedAt := now } else s),
     chatMessages := st.chatMessages ++ [m],
     nextMessageId := st.nextMessageId + 1 })

/-- getChatMessages: messages of a session in creation order. -/
def getChatMessages (st : Storage) (sessionId : Nat) : List ChatMessage :=
  stableSortBy (fun a b => decide (a.createdAt ≤ b.createdAt))
    (st.chatMessages.filter (fun m => m.sessionId == sessionId))

/-- Title derived from the first message: at most 30 characters, longer
content truncated to 27 characters plus an ellipsis. The string
operations are modelled on the character sequence. -/
def truncateTitle (content : String) : String :=
  if content.length > 30 then String.mk (content.data.take 27) ++ "..."
  else content

/-- Strip a trailing client-side truncation marker, as content.slice(0, -3)
when the content ends with three dots, modelled on the character
sequence. -/
def cleanDots (content : String) : String :=
  if content.data.reverse.take 3 == ['.', '.', '.'] then
    String.mk (content.data.take (content.length - 3))
  else content

/-- Persist the user message and, when it is the first message of the
session, overwrite the session title with its truncation. -/
def persistUserMessage (st : Storage) (sessionId : Nat) (cleaned : String)
    (atts : List FileAttachment) (now : Nat) : ChatMessage × Storage :=
  let res1 := createChatMessage st sessionId cleaned .user atts now
  let msgs := getChatMessages res1.2 sessionId
  if msgs.length == 1 && (msgs.headD res1.1).id == res1.1.id then
    (res1.1, (updateChatSessionTitle res1.2 sessionId (truncateTitle cleaned) now).2)
  else
    (res1.1, res1.2)

/-- The profile-update check of sendMessage: it only runs when the user
has a nonempty profile description; a throwing check or the NULL
sentinel leave the profile untouched, a returned replacement is
persisted. -/
def profileUpdateStep (st : Storage) (uid : Nat)
    (outcome : Option (Option String)) : Bool × Storage :=
  match getUser st uid with
  | none => (false, st)
  | some cu =>
    match cu.profileDescription with
    | none => (false, st)
    | some d =>
      if d == "" then (false, st)
      else
        match outcome with
        | none => (false, st)
        | some none => (false, st)
        | some (some p) => (true, updateUserProfileDescription st uid p)

/-- External outcomes of one sendMessage call: the configured API key,
whether system-prompt construction throws, the AI call result (none
models a thrown error), and the profile-update check result (none
models a thrown error, some none the NULL sentinel, some (some p) a
replacement profile). -/
structure ChatEnv where
  apiKey : Option String
  promptFails : Bool
  aiResult : Option String
  profileCheck : Option (Option String)
deriving DecidableEq

/-- Responses of POST /api/chat/sessions/:sessionId/messages. Only the
aiError and success forms carry the stored user message back to the
client; configError is the 500 sent when the API key is missing and
internalError the generic error handler reached via next(error). -/
inductive SendMessageOutcome
  | unauthorized
  | badRequest
  | notFound
  | forbidden
  | configError
  | internalError
  | aiError (userMessage : ChatMessage)
  | success (userMessage aiMessage : ChatMessage) (profileUpdated : Bool)
deriving DecidableEq

/-- Whether a response body carries the stored user message. -/
def carriesUserMessage : SendMessageOutcome → Bool
  | .aiError _ => true
  | .success _ _ _ => true
  | _ => false

/-- POST /api/chat/sessions/:sessionId/messages: authentication, content
check, session lookup, ownership check, persist the cleaned user
message (with first-message title update), then the API-key gate, the
system prompt, the AI call, the AI message insert and the profile-update
check, mirroring the branch structure of the handler. -/
def sendMessageRoute (st : Storage) (user : Option Nat) (sessionId : Nat)
    (content : String) (atts : List FileAttachment) (env : ChatEnv)
    (now : Nat) : SendMessageOutcome × Storage :=
  match user with
  | none => (.unauthorized, st)
  | some uid =>
    if content == "" then (.badRequest, st)
    else
      match getChatSession st sessionId with
      | none => (.notFound, st)
      | some session =>
        if !(session.userId == uid) then (.forbidden, st)
        else
          let pres := persistUserMessage st sessionId (cleanDots content) atts now
          match env.apiKey with
          | none => (.configError, pres.2)
          | some _ =>
            if env.promptFails then (.internalError, pres.2)
            else
              match env.aiResult with
              | none => (.aiError pres.1, pres.2)
              | some text =>
                let res2 := createChatMessage pres.2 sessionId text .ai [] now
                let check := profileUpdateStep res2.2 uid env.profileCheck
                (.success pres.1 res2.1 check.1, check.2)

/-- Renaming a session does not touch the messages table. -/
theorem updateChatSessionTitle_messages (st : Storage) (sid : Nat)
    (t : String) (now : Nat) :
    (updateChatSessionTitle st sid t now).2.chatMessages = st.chatMessages := by
  unfold updateChatSessionTitle
  cases st.chatSessions.find? (fun s => s.id == sid) <;> rfl

/-- The persisted user message carries the cleaned content, the user
sender and the session id. -/
theorem persistUserMessage_fields (st : Storage) (sid : Nat) (cl : String)
    (atts : List FileAttachment) (now : Nat) :
    (persistUserMessage st sid cl atts now).1.content = cl ∧
    (persistUserMessage st sid cl atts now).1.sender = .user ∧
    (persistUserMessage st sid cl atts now).1.sessionId = sid := by
  unfold persistUserMessage
  dsimp only
  split <;> exact ⟨rfl, rfl, rfl⟩

/-- The persisted user message is stored. -/
theorem persistUserMessage_mem (st : Storage) (sid : Nat) (cl : String)
    (atts : List FileAttachment) (now : Nat) :
    (persistUserMessage st sid cl atts now).1 ∈
      (persistUserMessage st sid cl atts now).2.chatMessages := by
  unfold persistUserMessage
  dsimp only
  split
  · rw [updateChatSessionTitle_messages]
    exact List.mem_append.mpr (Or.inr (List.mem_singleton.mpr rfl))
  · exact List.mem_append.mpr (Or.inr (List.mem_singleton.mpr rfl))

/-- Inserting a further message keeps stored messages stored. -/
theorem createChatMessage_messages_mono (st : Storage) (sid : Nat)
    (cl : String) (sender : Sender) (atts : List FileAttachment) (now : Nat)
    (m : ChatMessage) (h : m ∈ st.chatMessages) :
    m ∈ (createChatMessage st sid cl sender atts now).2.chatMessages :=
  List.mem_append.mpr (Or.inl h)

/-- The profile-update check does not touch the messages table. -/
theorem profileUpdateStep_messages (st : Storage) (uid : Nat)
    (outcome : Option (Option String)) :
    (profileUpdateStep st uid outcome).2.chatMessages = st.chatMessages := by
  unfold profileUpdateStep updateUserProfileDescription
  cases getUser st uid with
  | none => rfl
  | some cu =>
    dsimp only
    cases cu.profileDescription with
    | none => rfl
    | some d =>
      dsimp only
      split
      · rfl
      · cases outcome with
        | none => rfl
        | some o => cases o <;> rfl

/-- State for the C8 scenarios: user 1 with a profile and the fresh
session 1. -/
def stC8 : Storage :=
  { emptyStorage with
    users := [{ id := 1, username := "alice", password := "h",
                profileDescription := some "This student is curious.",
                onboarding := storageDefaultOnboarding }],
    chatSessions := [{ id := 1, userId := 1, title := "New Conversation",
                       createdAt := 0, updatedAt := 0 }],
    nextUserId := 2, nextSessionId := 2 }

/-- Environment with the AI credential missing. -/
def envNoKey : ChatEnv :=
  { apiKey := none, promptFails := false, aiResult := some "answer",
    profileCheck := some none }

/-- C8 counterexample: with the API key missing the handler answers the
500 config error whose body has only error and message fields, so the
response does not carry the already-persisted user message, although
that message does stay persisted. -/
theorem c8_counterexample_missing_key_response :
    (sendMessageRoute stC8 (some 1) 1 "Tell me about MIT" [] envNoKey 5).1 =
      .configError ∧
    carriesUserMessage
      (sendMessageRoute stC8 (some 1) 1 "Tell me about MIT" [] envNoKey 5).1 = false ∧
    (sendMessageRoute stC8 (some 1) 1 "Tell me about MIT" [] envNoKey 5).2.chatMessages.any
      (fun m => m.content == "Tell me about MIT" && m.sender == Sender.user) = true := by
  decide

/-- C8 (amended): once the handler has passed authentication, the
content check, the session lookup and the ownership check, the cleaned
user message is in the stored messages of the final state under every
environment, so no failure rolls it back; an AI-call failure with the
key present returns the aiError response carrying that stored message;
but a missing API key returns the configError response, which carries an
error indicator and not the user message. -/
theorem c8_user_message_never_rolled_back (st : Storage) (uid sessionId : Nat)
    (content : String) (atts : List FileAttachment) (env : ChatEnv) (now : Nat)
    (session : ChatSession)
    (hsession : getChatSession st sessionId = some session)
    (howner : session.userId = uid)
    (hcontent : content ≠ "") :
    (∃ m : ChatMessage, m.content = cleanDots content ∧ m.sender = .user ∧
      m.sessionId = sessionId ∧
      m ∈ (sendMessageRoute st (some uid) sessionId content atts env now).2.chatMessages) ∧
    (env.apiKey = none →
      (sendMessageRoute st (some uid) sessionId content atts env now).1 =
        .configError) ∧
    (∀ k, env.apiKey = some k → env.promptFails = false → env.aiResult = none →
      (sendMessageRoute st (some uid) sessionId content atts env now).1 =
        .aiError (persistUserMessage st sessionId (cleanDots content) atts now).1) ∧
    (∀ k text, env.apiKey = some k → env.promptFails = false →
      env.aiResult = some text →
      (sendMessageRoute st (some uid) sessionId content atts env now).1 =
        .success (persistUserMessage st sessionId (cleanDots content) atts now).1
          (createChatMessage
            (persistUserMessage st sessionId (cleanDots content) atts now).2
            sessionId text .ai [] now).1
          (profileUpdateStep
            (createChatMessage
              (persistUserMessage st sessionId (cleanDots content) atts now).2
              sessionId text .ai [] now).2
            uid env.profileCheck).1) := by
  obtain ⟨key, pfail, aiRes, pCheck⟩ := env
  have hc : (content == "") = false := by simpa using hcontent
  have ho : (session.userId == uid) = true := by simp [howner]
  have hmem0 := persistUserMessage_mem st sessionId (cleanDots content) atts now
  have hfields := persistUserMessage_fields st sessionId (cleanDots content) atts now
  simp only [sendMessageRoute, hc, hsession, ho, Bool.not_true, Bool.false_eq_true,
    if_false]
  cases key with
  | none =>
    refine ⟨⟨(persistUserMessage st sessionId (cleanDots content) atts now).1,
      hfields.1, hfields.2.1, hfields.2.2, hmem0⟩, fun _ => rfl, ?_, ?_⟩
    · intro k hk; cases hk
    · intro k text hk; cases hk
  | some k0 =>
    cases pfail with
    | true =>
      refine ⟨⟨(persistUserMessage st sessionId (cleanDots content) atts now).1,
        hfields.1, hfields.2.1, hfields.2.2, by simpa using hmem0⟩, ?_, ?_, ?_⟩
      · intro hk; cases hk
      · intro k hk hp; cases hp
      · intro k text hk hp; cases hp
    | false =>
      cases aiRes with
      | none =>
        refine ⟨⟨(persistUserMessage st sessionId (cleanDots content) atts now).1,
          hfields.1, hfields.2.1, hfields.2.2, by simpa using hmem0⟩, ?_, ?_, ?_⟩
        · intro hk; cases hk
        · intro k hk hp hai; rfl
        · intro k text hk hp hai; cases hai
      | some text0 =>
        refine ⟨⟨(persistUserMessage st sessionId (cleanDots content) atts now).1,
          hfields.1, hfields.2.1, hfields.2.2, ?_⟩, ?_, ?_, ?_⟩
        · show _ ∈ (profileUpdateStep _ uid pCheck).2.chatMessages
          rw [profileUpdateStep_messages]
          exact createChatMessage_messages_mono _ _ _ _ _ _ _ hmem0
        · intro hk; cases hk
        · intro k hk hp hai; cases hai
        · intro k text hk hp hai
          have htext : text = text0 := Option.some.inj hai.symm
          rw [htext]
          rfl

/-- Environment where the AI call throws. -/
def envAiFails : ChatEnv :=
  { apiKey := some "key-1", promptFails := false, aiResult := none,
    profileCheck := some none }

/-- Witness instantiating the C8 theorem: with a key present and a
failing AI call the response is the aiError form carrying the stored
user message, and the message is persisted. -/
theorem c8_user_message_never_rolled_back_witness :
    (∃ m : ChatMessage, m.content = cleanDots "Tell me about MIT" ∧
      m.sender = .user ∧ m.sessionId = 1 ∧
      m ∈ (sendMessageRoute stC8 (some 1) 1 "Tell me about MIT" [] envAiFails 5).2.chatMessages) ∧
    (sendMessageRoute stC8 (some 1) 1 "Tell me about MIT" [] envAiFails 5).1 =
      .aiError (persistUserMessage stC8 1 (cleanDots "Tell me about MIT") [] 5).1 := by
  have h := c8_user_message_never_rolled_back stC8 1 1 "Tell me about MIT" []
    envAiFails 5
    { id := 1, userId := 1, title := "New Conversation", createdAt := 0, updatedAt := 0 }
    (by decide) rfl (by decide)
  exact ⟨h.1, h.2.2.1 "key-1" rfl rfl rfl⟩

/-- Concrete advisor used for the share-token scenarios. -/
def advisorA : Advisor :=
  { id := 1, userId := 1, name := "Ms. Lee", advisorType := .schoolCounselor,
    shareToken := "tok-1", isActive := true, createdAt := 0, updatedAt := 0 }

/-- State where advisorA is active and has one shared chat session. -/
def stAdvisorActive : Storage :=
  { emptyStorage with
    advisors := [advisorA],
    chatSessions := [{ id := 7, userId := 1, title := "Essays", createdAt := 0, updatedAt := 0 }],
    sharedChatSessions := [{ id := 1, advisorId := 1, sessionId := 7, createdAt := 0 }],
    nextAdvisorId := 2, nextSessionId := 8, nextSharedId := 2 }

/-- State after PATCH /api/advisors/1/status with isActive set to false. -/
def stAdvisorInactive : Storage :=
  (updateAdvisorActiveStatus stAdvisorActive 1 false 1).2

/-- State after reactivating the advisor again. -/
def stAdvisorReactive : Storage :=
  (updateAdvisorActiveStatus stAdvisorInactive 1 true 2).2

/-- C1: deactivating an advisor must make every share-token lookup behave
as not found. The MemStorage lookup does filter on isActive and the share
token and sharing associations survive deactivation and reactivation, but
the PostgresStorage lookup selects on the token alone, so after
deactivation it still returns the advisor row and the shared view stays
reachable: the production lookup contradicts both the MemStorage
implementation of the same interface method and the route error text
"Advisor not found or link inactive". -/
theorem c1_postgres_share_lookup_ignores_deactivation :
    getAdvisorByShareToken stAdvisorInactive "tok-1" =
      some { advisorA with isActive := false, updatedAt := 1 } ∧
    getAdvisorByShareTokenMem stAdvisorInactive "tok-1" = none ∧
    stAdvisorInactive.sharedChatSessions = stAdvisorActive.sharedChatSessions ∧
    getAdvisorByShareTokenMem stAdvisorReactive "tok-1" =
      some { advisorA with isActive := true, updatedAt := 2 } ∧
    stAdvisorReactive.sharedChatSessions = stAdvisorActive.sharedChatSessions := by
  decide

/-- C4: registering with no onboarding payload is claimed to give all
seven onboarding fields the sentinel value. The inline fallback object in
the register route omits academicStats and financialAid, and because that
object is truthy it overrides the complete seven-field default inside
createUser, so the stored record leaves those two fields unset while the
other five do receive the sentinel. -/
theorem c4_register_fallback_omits_two_fields :
    (registerUser emptyStorage (fun p => p ++ ".h") "alice" "pw12345678" none).map
      (fun r => r.1.onboarding) = some registerFallbackOnboarding ∧
    registerFallbackOnboarding.programs = some skippedSentinel ∧
    registerFallbackOnboarding.academicEnv = some skippedSentinel ∧
    registerFallbackOnboarding.location = some skippedSentinel ∧
    registerFallbackOnboarding.culture = some skippedSentinel ∧
    registerFallbackOnboarding.other = some skippedSentinel ∧
    registerFallbackOnboarding.academicStats = none ∧
    registerFallbackOnboarding.financialAid = none ∧
    storageDefaultOnboarding.academicStats = some skippedSentinel ∧
    storageDefaultOnboarding.financialAid = some skippedSentinel := by
  decide

/-- C10: deleteAdvisor removes only the advisor row itself; the junction
table of shared chat sessions and every other table are left unchanged. -/
theorem c10_delete_advisor_no_cascade (st : Storage) (advisorId : Nat) :
    (deleteAdvisor st advisorId).2.sharedChatSessions = st.sharedChatSessions ∧
    (deleteAdvisor st advisorId).2.advisors =
      st.advisors.filter (fun a => !(a.id == advisorId)) ∧
    (deleteAdvisor st advisorId).2.users = st.users ∧
    (deleteAdvisor st advisorId).2.colleges = st.colleges ∧
    (deleteAdvisor st advisorId).2.chatSessions = st.chatSessions ∧
    (deleteAdvisor st advisorId).2.chatMessages = st.chatMessages ∧
    (deleteAdvisor st advisorId).2.recommendations = st.recommendations := by
  refine ⟨rfl, rfl, rfl, rfl, rfl, rfl, rfl⟩

end CollegeWayfarer
